import Mathlib

/-!
# Clean Sheets AI: the `api/analyze.js` request handler

A shallow embedding of the single exported handler of `api/analyze.js`
and proofs about its validation, prompt construction, fence stripping,
confidence filter and error paths.

Modelling conventions.

* JavaScript values that can occur in a parsed JSON document are the type
  `JsVal`; property reads, truthiness and string/number coercions follow
  ECMAScript for such values.
* A thrown exception is a `JsError` carrying its `message`; code that can
  throw returns `Except JsError _`.  The wording of messages raised by the
  engine itself (TypeError texts) is engine defined; no theorem depends on it.
* Built-in algorithms of the language that are not part of this repository
  (`JSON.parse`, number formatting, numeric-string parsing) are the fields
  of an `Engine`, and everything is proved for an arbitrary engine.
* The outside world (the environment variable and the `fetch` call) is a
  `World`.  Console logging has no effect on the response and is omitted.
* The response is the status, the headers and the value handed to
  `res.json` (or nothing, for `res.end()`).
-/

namespace Analyze

/-! ## JavaScript values -/

/-- A JavaScript number: `fin q` is a finite binary64 value, given by its
exact rational value `q` (the two zeros are identified).  A decimal literal
of the source denotes the binary64 value nearest to it. -/
inductive JsNum where
  | nan
  | posInf
  | negInf
  | fin (q : Rat)
  deriving DecidableEq

/-- The JavaScript values reachable from parsed JSON, plus `undefined`
(the result of reading a missing property).  An object is its list of own
properties; a property read takes the first entry with the given key. -/
inductive JsVal where
  | undefined
  | null
  | bool (b : Bool)
  | num (n : JsNum)
  | str (s : String)
  | arr (xs : List JsVal)
  | obj (fields : List (String × JsVal))

/-- A thrown exception, identified by its `message` property. -/
structure JsError where
  message : String
  deriving DecidableEq

/-- Built-ins of the language used by the handler. -/
structure Engine where
  /-- The function `JSON.parse` on a string: the parsed value, or the thrown SyntaxError. -/
  jsonParse : String → Except JsError JsVal
  /-- The operation `Number::toString`, as used by string concatenation. -/
  numberToString : JsNum → String
  /-- The operation `StringToNumber`, as used by a relational comparison with a number. -/
  stringToNumber : String → JsNum

/-- The test `Array.isArray(v)`. -/
def JsVal.isArray : JsVal → Bool
  | .arr _ => true
  | _ => false

/-- The elements of an array value (empty for any other value). -/
def JsVal.elements : JsVal → List JsVal
  | .arr xs => xs
  | _ => []

/-- The operation `ToBoolean`: `undefined`, `null`, `false`, `0`, `NaN` and `""` are falsy. -/
def truthy : JsVal → Bool
  | .undefined => false
  | .null => false
  | .bool b => b
  | .num .nan => false
  | .num (.fin q) => decide (q ≠ 0)
  | .num _ => true
  | .str s => decide (s ≠ "")
  | .arr _ => true
  | .obj _ => true

/-- The read `v.key` for a property name that no built-in prototype defines
(all names read by the handler are such): throws on `undefined` and `null`,
yields the own property of an object, and `undefined` otherwise. -/
def getProp (v : JsVal) (key : String) : Except JsError JsVal :=
  match v with
  | .undefined =>
      .error ⟨"Cannot read properties of undefined (reading \x27" ++ key ++ "\x27)"⟩
  | .null => .error ⟨"Cannot read properties of null (reading \x27" ++ key ++ "\x27)"⟩
  | .obj fields => .ok ((fields.lookup key).getD .undefined)
  | _ => .ok .undefined

/-- The read `v[i]` for a literal index `i`: an array element, a one-character
string, or the own property named by the index. -/
def getIndex (v : JsVal) (i : Nat) : Except JsError JsVal :=
  match v with
  | .undefined =>
      .error ⟨"Cannot read properties of undefined (reading \x27" ++ toString i ++ "\x27)"⟩
  | .null => .error ⟨"Cannot read properties of null (reading \x27" ++ toString i ++ "\x27)"⟩
  | .arr xs => .ok (xs.getD i .undefined)
  | .str s => .ok (((s.data.get? i).map fun c => JsVal.str (String.singleton c)).getD .undefined)
  | .obj fields => .ok ((fields.lookup (toString i)).getD .undefined)
  | _ => .ok .undefined

/-- The destructuring `const { key } = v`. -/
def destructure (v : JsVal) (key source : String) : Except JsError JsVal :=
  match v with
  | .undefined =>
      .error ⟨"Cannot destructure property \x27" ++ key ++ "\x27 of \x27" ++ source
        ++ "\x27 as it is undefined."⟩
  | .null =>
      .error ⟨"Cannot destructure property \x27" ++ key ++ "\x27 of \x27" ++ source
        ++ "\x27 as it is null."⟩
  | w => getProp w key

mutual
/-- The operation `ToString(ToPrimitive(v))`, as performed by `+` with a string
operand.  An array is joined with commas; an object without an own
`toString` property prints as `[object Object]`, and one with such a
property (never callable in parsed JSON) cannot be converted. -/
def toStr (E : Engine) : JsVal → Except JsError String
  | .undefined => .ok "undefined"
  | .null => .ok "null"
  | .bool true => .ok "true"
  | .bool false => .ok "false"
  | .num n => .ok (E.numberToString n)
  | .str s => .ok s
  | .arr xs => do
      let parts ← joinParts E xs
      pure (String.intercalate "," parts)
  | .obj fields =>
      if (fields.lookup "toString").isSome then
        .error ⟨"Cannot convert object to primitive value"⟩
      else .ok "[object Object]"
/-- The pieces joined by `Array.prototype.join`: `undefined` and `null`
elements contribute the empty string. -/
def joinParts (E : Engine) : List JsVal → Except JsError (List String)
  | [] => .ok []
  | .undefined :: xs => do
      let rest ← joinParts E xs
      pure ("" :: rest)
  | .null :: xs => do
      let rest ← joinParts E xs
      pure ("" :: rest)
  | x :: xs => do
      let s ← toStr E x
      let rest ← joinParts E xs
      pure (s :: rest)
end

/-- The operation `ToNumber(ToPrimitive(v, number))`. -/
def toNumber (E : Engine) : JsVal → Except JsError JsNum
  | .undefined => .ok .nan
  | .null => .ok (.fin 0)
  | .bool true => .ok (.fin 1)
  | .bool false => .ok (.fin 0)
  | .num n => .ok n
  | .str s => .ok (E.stringToNumber s)
  | .arr xs => do
      let s ← toStr E (.arr xs)
      pure (E.stringToNumber s)
  | .obj fields => do
      let s ← toStr E (.obj fields)
      pure (E.stringToNumber s)

/-- The comparison `n > t` of a number with a finite value `t`. -/
def JsNum.gt (n : JsNum) (t : Rat) : Bool :=
  match n with
  | .nan => false
  | .posInf => true
  | .negInf => false
  | .fin q => decide (q > t)

/-! ## Prompt construction (lines 38-51) -/

/-- The constant `maxCells`. -/
def maxCells : Nat := 200

/-- The initial value of `prompt`. -/
def promptHeader : String :=
  "Analyze this Google Sheets data. Format: address [column]: value\n\n"

/-- The text appended to `prompt` for one cell by the `forEach` callback. -/
def cellLine (E : Engine) (cell : JsVal) : Except JsError String := do
  let header ← getProp cell "header"
  let headerHint ←
    if truthy header then do
      let h ← toStr E header
      pure (" [" ++ h ++ "]")
    else pure ""
  let wasFormula ← getProp cell "wasFormula"
  let formulaHint := if truthy wasFormula then " [extracted from broken formula]" else ""
  let address ← getProp cell "address"
  let a ← toStr E address
  let value ← getProp cell "value"
  let v ← toStr E value
  pure (a ++ headerHint ++ formulaHint ++ ": \"" ++ v ++ "\"\n")

/-- The `forEach` callback: `prompt += ...` for one cell. -/
def appendLine (E : Engine) (prompt : String) (cell : JsVal) : Except JsError String := do
  let line ← cellLine E cell
  pure (prompt ++ line)

/-- The trailing note for `total` cells. -/
def truncationNote (total : Nat) : String :=
  "\n(Showing first " ++ toString maxCells ++ " of " ++ toString total ++ " cells)"

/-- The user prompt built from the `data` array. -/
def buildPrompt (E : Engine) (data : List JsVal) : Except JsError String := do
  let limited := data.take maxCells
  let prompt ← limited.foldlM (appendLine E) promptHeader
  if data.length > maxCells then
    pure (prompt ++ truncationNote data.length)
  else
    pure prompt

/-! ## Response parsing (lines 99-108) -/

/-- The opening marker of a JSON code fence: three backticks and `json`. -/
def fenceOpen : List Char := "\x60\x60\x60json".data

/-- Three backticks. -/
def fenceClose : List Char := "\x60\x60\x60".data

/-- Length of the match of the pattern at the head of the text, `0` when it
does not match there.  The pattern is the alternation of the opening marker
with an optional following newline, and of three backticks with an optional
preceding newline; alternatives are tried in this order and the optional
newline is greedy. -/
def fenceMatch (cs : List Char) : Nat :=
  if (fenceOpen ++ ['\n']).isPrefixOf cs then 8
  else if fenceOpen.isPrefixOf cs then 7
  else if ('\n' :: fenceClose).isPrefixOf cs then 4
  else if fenceClose.isPrefixOf cs then 3
  else 0

/-- The global replacement of every match by the empty string, scanning left
to right; `skip` is the number of characters of the current match still to
be dropped. -/
def removeFencesAux : Nat → List Char → List Char
  | _, [] => []
  | skip + 1, _ :: cs => removeFencesAux skip cs
  | 0, c :: cs =>
      match fenceMatch (c :: cs) with
      | 0 => c :: removeFencesAux 0 cs
      | k + 1 => removeFencesAux k cs

/-- The call `text.replace(pattern, "")` with the global fence pattern. -/
def removeFences (text : String) : String :=
  ⟨removeFencesAux 0 text.data⟩

/-- White space and line terminators, the characters removed by `trim`. -/
def isJsWhiteSpace (c : Char) : Bool :=
  let n := c.toNat
  n == 0x09 || n == 0x0A || n == 0x0B || n == 0x0C || n == 0x0D || n == 0x20 || n == 0xA0
    || n == 0x1680 || (0x2000 ≤ n && n ≤ 0x200A) || n == 0x2028 || n == 0x2029
    || n == 0x202F || n == 0x205F || n == 0x3000 || n == 0xFEFF

/-- Removal of leading and trailing white space from a list of characters. -/
def trimChars (cs : List Char) : List Char :=
  ((cs.dropWhile isJsWhiteSpace).reverse.dropWhile isJsWhiteSpace).reverse

/-- The method `String.prototype.trim`. -/
def jsTrim (s : String) : String :=
  ⟨trimChars s.data⟩

/-- The value of `jsonText`: fences removed, then trimmed. -/
def stripFence (text : String) : String :=
  jsTrim (removeFences text)

/-- The body of the inner `try`: only a string has a callable `replace`. -/
def parseAttempt (E : Engine) (aiResponse : JsVal) : Except JsError JsVal :=
  match aiResponse with
  | .str text => E.jsonParse (stripFence text)
  | .undefined => .error ⟨"Cannot read properties of undefined (reading \x27replace\x27)"⟩
  | .null => .error ⟨"Cannot read properties of null (reading \x27replace\x27)"⟩
  | _ => .error ⟨"aiResponse.replace is not a function"⟩

/-- The value of `issues` after the inner `try`/`catch`: a failed attempt
leaves the empty array. -/
def parseIssues (E : Engine) (aiResponse : JsVal) : JsVal :=
  match parseAttempt E aiResponse with
  | .ok v => v
  | .error _ => .arr []

/-! ## Confidence filter (lines 110-111) -/

/-- The threshold of the filter: the binary64 value `0x3FE6666666666666`
denoted by the literal `0.7`, just below the real number 7/10. -/
def confidenceThreshold : Rat := 3152519739159347 / 4503599627370496

/-- The rational `q` is the value of a finite binary64 number: an integer
significand below `2^53` in absolute value times a power of two in the
exponent range. -/
def IsBinary64 (q : Rat) : Prop :=
  ∃ m e : Int, |m| < 2 ^ 53 ∧ -1074 ≤ e ∧ e ≤ 971 ∧ q = m * (2 : Rat) ^ e

/-- The filter callback. -/
def keepIssue (E : Engine) (i : JsVal) : Except JsError Bool := do
  let confidence ← getProp i "confidence"
  if !truthy confidence then
    pure true
  else do
    let n ← toNumber E confidence
    pure (n.gt confidenceThreshold)

/-- The method `Array.prototype.filter` with a callback that may throw:
elements are visited in order and the first exception aborts the call. -/
def filterArray (p : JsVal → Except JsError Bool) : List JsVal → Except JsError (List JsVal)
  | [] => .ok []
  | x :: xs => do
      let keep ← p x
      let rest ← filterArray p xs
      pure (if keep then x :: rest else rest)

/-- The value of `filtered`: only an array has a callable `filter`. -/
def filterIssues (E : Engine) (issues : JsVal) : Except JsError (List JsVal) :=
  match issues with
  | .arr xs => filterArray (keepIssue E) xs
  | .undefined => .error ⟨"Cannot read properties of undefined (reading \x27filter\x27)"⟩
  | .null => .error ⟨"Cannot read properties of null (reading \x27filter\x27)"⟩
  | _ => .error ⟨"issues.filter is not a function"⟩

/-! ## The handler (lines 4-126) -/

/-- The incoming request: its method and its parsed body (`undefined` when
there is none). -/
structure Request where
  method : String
  body : JsVal

/-- The outcome of the awaited `fetch` call: a rejection, or a response with
its status, the outcome of awaiting `response.text()` and the outcome of
awaiting `response.json()`; either read of the body may reject. -/
inductive FetchResult where
  | rejected (e : JsError)
  | response (status : Nat) (text : Except JsError String) (json : Except JsError JsVal)

/-- The options object passed to `fetch`; `body` is the value given to
`JSON.stringify`. -/
structure FetchInit where
  method : String
  headers : List (String × String)
  body : JsVal

/-- The surroundings of one invocation. -/
structure World where
  /-- The value of `process.env.OPENROUTER_API_KEY`, `none` when unset. -/
  apiKey : Option String
  /-- The upstream service, as a function of the request issued to it. -/
  fetch : String → FetchInit → FetchResult

/-- What the handler sends: the headers set, the status, and the JSON body
(`none` for `end()` without a body). -/
structure Response where
  headers : List (String × String)
  status : Nat
  body : Option JsVal

/-- The three headers set before anything else. -/
def corsHeaders : List (String × String) :=
  [("Access-Control-Allow-Origin", "*"),
   ("Access-Control-Allow-Methods", "GET, POST, OPTIONS"),
   ("Access-Control-Allow-Headers", "Content-Type")]

/-- The call `res.status(status).json(body)`. -/
def sendJson (status : Nat) (body : JsVal) : Response :=
  ⟨corsHeaders, status, some body⟩

/-- The call `res.status(status).end()`. -/
def sendEmpty (status : Nat) : Response :=
  ⟨corsHeaders, status, none⟩

/-- The body of every failure response carrying `success: false`. -/
def failureBody (message : String) : JsVal :=
  .obj [("success", .bool false), ("error", .str message)]

/-- The body of the success response. -/
def successBody (filtered : List JsVal) : JsVal :=
  .obj [("success", .bool true), ("issues", .arr filtered)]

/-- The constant `systemPrompt`. -/
def systemPrompt : String :=
  "You are a data cleaning expert for spreadsheets. Find ALL issues and suggest fixes.\n"
  ++ "\n"
  ++ "STRICT RULES - must follow every time:\n"
  ++ "1. ALWAYS fix phone numbers to format 8(XXX)XXX-XX-XX for Russian numbers, or standard local format for others\n"
  ++ "2. ALWAYS trim extra spaces (leading, trailing, double spaces inside)\n"
  ++ "3. ALWAYS fix name capitalization → \"John Smith\" (not \"john smith\" or \"JOHN SMITH\")\n"
  ++ "4. ALWAYS lowercase emails → ivan@mail.ru (not IVAN@MAIL.RU)\n"
  ++ "5. ALWAYS normalize dates → DD.MM.YYYY\n"
  ++ "6. Use the column header as a hint about the data type\n"
  ++ "7. Cells marked [extracted from broken formula] — treat as regular data and fix normally\n"
  ++ "8. DO NOT skip obvious issues — check every single cell\n"
  ++ "\n"
  ++ "Return ONLY a valid JSON array, no text before or after, no markdown:\n"
  ++ "[\x7b\"row\":3,\"col\":2,\"type\":\"Phone format\",\"oldValue\":\"+7999123\",\"newValue\":\"8(999)123-45-67\",\"confidence\":0.98\x7d]\n"
  ++ "\n"
  ++ "If no issues found, return []."

/-- The binary64 value denoted by the literal `0.1` of `temperature`. -/
def temperature : Rat := 3602879701896397 / 36028797018963968

/-- The address of the upstream service. -/
def upstreamUrl : String := "https://openrouter.ai/api/v1/chat/completions"

/-- The options of the one upstream call. -/
def fetchInit (apiKey prompt : String) : FetchInit where
  method := "POST"
  headers :=
    [("Authorization", "Bearer " ++ apiKey),
     ("Content-Type", "application/json"),
     ("HTTP-Referer", "https://sheets.google.com"),
     ("X-Title", "Clean Sheets AI")]
  body :=
    .obj
      [("model", .str "openai/gpt-4o-mini"),
       ("messages",
        .arr
          [.obj [("role", .str "system"), ("content", .str systemPrompt)],
           .obj [("role", .str "user"), ("content", .str prompt)]]),
       ("temperature", .num (.fin temperature)),
       ("max_tokens", .num (.fin 4000))]

/-- The property `response.ok`: the status is in the range 200-299. -/
def statusOk (status : Nat) : Bool :=
  200 ≤ status && status ≤ 299

/-- The expression `result.choices[0].message.content`. -/
def firstCompletion (result : JsVal) : Except JsError JsVal := do
  let choices ← getProp result "choices"
  let first ← getIndex choices 0
  let message ← getProp first "message"
  getProp message "content"

/-- Lines 95-117: from the upstream response to the success response. -/
def relay (E : Engine) (json : Except JsError JsVal) : Except JsError Response := do
  let result ← json
  let aiResponse ← firstCompletion result
  let issues := parseIssues E aiResponse
  let filtered ← filterIssues E issues
  pure (sendJson 200 (successBody filtered))

/-- The body of the outer `try` block. -/
def tryBlock (E : Engine) (W : World) (req : Request) : Except JsError Response := do
  let data ← destructure req.body "data" "req.body"
  if !truthy data || !data.isArray || data.elements.length == 0 then
    pure (sendJson 400 (failureBody "No data provided"))
  else
    match W.apiKey with
    | none => pure (sendJson 500 (failureBody "API key not configured"))
    | some apiKey =>
      if apiKey = "" then
        pure (sendJson 500 (failureBody "API key not configured"))
      else do
        let prompt ← buildPrompt E data.elements
        match W.fetch upstreamUrl (fetchInit apiKey prompt) with
        | .rejected e => throw e
        | .response status text json =>
          if !statusOk status then do
            let _errorText ← text
            throw ⟨"OpenRouter API error: " ++ toString status⟩
          else
            relay E json

/-- The exported handler. -/
def handler (E : Engine) (W : World) (req : Request) : Response :=
  if req.method = "OPTIONS" then
    sendEmpty 200
  else if req.method ≠ "POST" then
    sendJson 405 (.obj [("error", .str "Method not allowed")])
  else
    match tryBlock E W req with
    | .ok response => response
    | .error error => sendJson 500 (failureBody error.message)

/-! ## Path conditions and the data model of the specification -/

/-- The request is a `POST` that passes validation (a body with a non-empty
`data` array, a configured key), its prompt is built, and the one upstream
call has the outcome `r`. -/
def Calls (E : Engine) (W : World) (req : Request) (r : FetchResult) : Prop :=
  req.method = "POST" ∧
  ∃ cells apiKey prompt,
    destructure req.body "data" "req.body" = .ok (.arr cells) ∧ cells ≠ [] ∧
    W.apiKey = some apiKey ∧ apiKey ≠ "" ∧
    buildPrompt E cells = .ok prompt ∧
    W.fetch upstreamUrl (fetchInit apiKey prompt) = r

/-- The upstream call of the request succeeds and the content of its first
completion is `aiResponse`. -/
def Completes (E : Engine) (W : World) (req : Request) (aiResponse : JsVal) : Prop :=
  ∃ status text result,
    Calls E W req (.response status text (.ok result)) ∧
    (200 ≤ status ∧ status ≤ 299) ∧
    firstCompletion result = .ok aiResponse

/-- A cell descriptor of the data model. -/
structure CellInput where
  address : String
  header : Option String
  wasFormula : Option Bool
  value : String

/-- The JSON object of a cell descriptor; an absent optional field is an
absent property. -/
def CellInput.toJs (c : CellInput) : JsVal :=
  .obj
    ([("address", .str c.address)]
      ++ (match c.header with
          | some h => [("header", .str h)]
          | none => [])
      ++ (match c.wasFormula with
          | some b => [("wasFormula", .bool b)]
          | none => [])
      ++ [("value", .str c.value)])

/-- The value `cell` carries exactly the fields of the descriptor `c`
(in any order, possibly among other properties). -/
def Represents (cell : JsVal) (c : CellInput) : Prop :=
  getProp cell "address" = .ok (.str c.address) ∧
  getProp cell "header" = .ok ((c.header.map JsVal.str).getD .undefined) ∧
  getProp cell "wasFormula" = .ok ((c.wasFormula.map JsVal.bool).getD .undefined) ∧
  getProp cell "value" = .ok (.str c.value)

/-- The prompt line of a cell as the specification words it: the header
annotation whenever a header is present, the formula annotation whenever
`wasFormula` is true. -/
def CellInput.specLine (c : CellInput) : String :=
  c.address
    ++ (match c.header with
        | some h => " [" ++ h ++ "]"
        | none => "")
    ++ (if c.wasFormula = some true then " [extracted from broken formula]" else "")
    ++ ": \"" ++ c.value ++ "\"\n"

/-- The prompt line of a cell with the header annotation only for a
non-empty header. -/
def CellInput.line (c : CellInput) : String :=
  c.address
    ++ (match c.header with
        | some h => if h = "" then "" else " [" ++ h ++ "]"
        | none => "")
    ++ (if c.wasFormula = some true then " [extracted from broken formula]" else "")
    ++ ": \"" ++ c.value ++ "\"\n"

/-- The confidence of an issue object of the data model: absent, or a number. -/
def IsIssue (i : JsVal) : Prop :=
  ∃ fields, i = .obj fields ∧
    (fields.lookup "confidence" = none ∨ ∃ n, fields.lookup "confidence" = some (.num n))

/-- The text `J` wrapped in a JSON code fence. -/
def fenced (J : String) : String :=
  "\x60\x60\x60json\n" ++ J ++ "\n\x60\x60\x60"

/-- The text contains three consecutive backticks. -/
def HasTripleBacktick (text : String) : Prop :=
  fenceClose <:+: text.data

/-- The text that follows does not start with a backtick. -/
def NoTickAhead (tail : List Char) : Prop :=
  ∀ c rest, tail = c :: rest → c ≠ '\x60'

/-- The callback answered `true` (and did not throw). -/
def answersTrue (r : Except JsError Bool) : Bool :=
  match r with
  | .ok b => b
  | .error _ => false

/-- What the handler answers once the upstream call has had the outcome `r`
(lines 89-125). -/
def afterFetch (E : Engine) (r : FetchResult) : Response :=
  match r with
  | .rejected e => sendJson 500 (failureBody e.message)
  | .response status text json =>
    if statusOk status then
      match relay E json with
      | .ok response => response
      | .error e => sendJson 500 (failureBody e.message)
    else
      match text with
      | .ok _ => sendJson 500 (failureBody ("OpenRouter API error: " ++ toString status))
      | .error e => sendJson 500 (failureBody e.message)

/-- What the handler answers once the first completion is `aiResponse`
(lines 99-125). -/
def afterCompletion (E : Engine) (aiResponse : JsVal) : Response :=
  match filterIssues E (parseIssues E aiResponse) with
  | .ok filtered => sendJson 200 (successBody filtered)
  | .error e => sendJson 500 (failureBody e.message)

/-- Concatenation of a list of lines, in order. -/
def concatLines : List String → String
  | [] => ""
  | line :: rest => line ++ concatLines rest

/-! ## Test doubles for the examples -/

/-- An engine whose `JSON.parse` answers from a table and rejects every
other text; the examples neither format nor parse numbers. -/
def tableEngine (table : List (String × JsVal)) : Engine where
  jsonParse text :=
    match table.lookup text with
    | some v => .ok v
    | none => .error ⟨"Unexpected token"⟩
  numberToString _ := "NaN"
  stringToNumber _ := .nan

/-- A world with a configured key whose upstream answers every call with
the given status and JSON body, and an empty text. -/
def cannedWorld (status : Nat) (json : Except JsError JsVal) : World where
  apiKey := some "sk-test"
  fetch _ _ := .response status (.ok "") json

/-- A world with a configured key whose upstream answers every call with
the given status and a body whose reading fails with `e`. -/
def brokenBodyWorld (status : Nat) (e : JsError) : World where
  apiKey := some "sk-test"
  fetch _ _ := .response status (.error e) (.error e)

/-- An upstream result whose first completion has the given content. -/
def completion (content : JsVal) : JsVal :=
  .obj [("choices", .arr [.obj [("message", .obj [("role", .str "assistant"), ("content", content)])]])]

/-- The request of the examples: one cell `A1` holding `  john smith `. -/
def exampleRequest : Request where
  method := "POST"
  body := .obj [("data", .arr [.obj [("address", .str "A1"), ("value", .str "  john smith ")]])]

/-- An issue of the examples with the given confidence. -/
def nameIssue (confidence : Rat) : JsVal :=
  .obj
    [("row", .num (.fin 1)), ("col", .num (.fin 1)), ("type", .str "Name case"),
     ("oldValue", .str "  john smith "), ("newValue", .str "John Smith"),
     ("confidence", .num (.fin confidence))]

/-- The JSON text of a one-element array holding `nameIssue`, for the given
spelling of the confidence. -/
def nameIssueText (confidence : String) : String :=
  "[\x7b\"row\":1,\"col\":1,\"type\":\"Name case\",\"oldValue\":\"  john smith \","
    ++ "\"newValue\":\"John Smith\",\"confidence\":" ++ confidence ++ "\x7d]"

/-- The binary64 value denoted by the literal `0.95`. -/
def double095 : Rat := 4278419646001971 / 4503599627370496

/-- The completion of the filter examples: an issue at confidence 0.5 followed by one at 0.95. -/
def twoIssuesText : String :=
  "[\x7b\"row\":2,\"col\":1,\"type\":\"Name case\",\"oldValue\":\"bob\",\"newValue\":\"Bob\","
    ++ "\"confidence\":0.5\x7d,"
    ++ "\x7b\"row\":1,\"col\":1,\"type\":\"Name case\",\"oldValue\":\"  john smith \","
    ++ "\"newValue\":\"John Smith\",\"confidence\":0.95\x7d]"

/-- The issue at confidence 0.5 of `twoIssuesText`. -/
def lowIssue : JsVal :=
  .obj
    [("row", .num (.fin 2)), ("col", .num (.fin 1)), ("type", .str "Name case"),
     ("oldValue", .str "bob"), ("newValue", .str "Bob"), ("confidence", .num (.fin (1 / 2)))]

/-- A completion whose issue quotes triple backticks inside string values. -/
def tickText : String :=
  "[\x7b\"row\":1,\"col\":1,\"type\":\"Markup\",\"oldValue\":\"\x60\x60\x60sum\x60\x60\x60\","
    ++ "\"newValue\":\"sum\"\x7d]"

/-- The text `tickText` with every triple backtick removed. -/
def tickTextStripped : String :=
  "[\x7b\"row\":1,\"col\":1,\"type\":\"Markup\",\"oldValue\":\"sum\",\"newValue\":\"sum\"\x7d]"

/-- The issue denoted by `tickTextStripped`. -/
def tickIssueStripped : JsVal :=
  .obj
    [("row", .num (.fin 1)), ("col", .num (.fin 1)), ("type", .str "Markup"),
     ("oldValue", .str "sum"), ("newValue", .str "sum")]

set_option maxRecDepth 100000

/-! ## The path through the handler -/

/-- A validated `POST` is answered according to the outcome of its upstream call. -/
theorem handler_of_calls {E : Engine} {W : World} {req : Request} {r : FetchResult}
    (h : Calls E W req r) : handler E W req = afterFetch E r := by
  obtain ⟨hm, cells, apiKey, prompt, hd, hne, hk, hk2, hp, hf⟩ := h
  have hlen : (cells.length == 0) = false := by
    cases cells with
    | nil => exact absurd rfl hne
    | cons c cs => rfl
  unfold handler tryBlock
  simp only [hm, hd]
  simp [truthy, JsVal.isArray, JsVal.elements, hlen, hk, hk2, hp, hf, afterFetch, bind,
    Except.bind, pure, Except.pure]
  cases r with
  | rejected e => simp [throw, throwThe, MonadExcept.throw]
  | response status text json =>
    by_cases hs : statusOk status = true
    · simp [hs]
    · cases text <;> simp [hs, throw, throwThe, MonadExcept.throw, bind, Except.bind]

/-- A request whose upstream call succeeds is answered from its first completion. -/
theorem handler_of_completes {E : Engine} {W : World} {req : Request} {aiResponse : JsVal}
    (h : Completes E W req aiResponse) : handler E W req = afterCompletion E aiResponse := by
  obtain ⟨status, text, result, hc, hrange, hf⟩ := h
  have hs : statusOk status = true := by simp [statusOk, hrange]
  rw [handler_of_calls hc]
  simp only [afterFetch, hs, if_true, relay, afterCompletion, bind, Except.bind, hf]
  cases filterIssues E (parseIssues E aiResponse) <;> rfl

/-- The example request reaches the upstream call, whatever it answers. -/
theorem calls_example (E : Engine) (status : Nat) (json : Except JsError JsVal) :
    Calls E (cannedWorld status json) exampleRequest (.response status (.ok "") json) :=
  ⟨rfl, _, "sk-test",
    "Analyze this Google Sheets data. Format: address [column]: value\n\nA1: \"  john smith \"\n",
    rfl, by simp, rfl, by decide, rfl, rfl⟩

/-- The example request completes with the canned completion. -/
theorem completes_example (E : Engine) (content : JsVal) :
    Completes E (cannedWorld 200 (.ok (completion content))) exampleRequest content :=
  ⟨200, .ok "", completion content, calls_example E 200 _, by decide, rfl⟩

/-! ## Validation -/

/-- C2 (amended): a request whose method is exactly `POST`, whose body is
present (neither `undefined` nor `null`) and whose `data` is missing, is not
an array, or is the empty array, is answered with status 400 and the body
`{success:false, error:"No data provided"}`, whatever its other fields, the
engine and the world (in particular whether an API key is configured). -/
theorem bad_data_rejected (E : Engine) (W : World) (req : Request) (data : JsVal)
    (hmethod : req.method = "POST")
    (hundef : req.body ≠ .undefined) (hnull : req.body ≠ .null)
    (hdata : getProp req.body "data" = .ok data)
    (hbad : data = .undefined ∨ data.isArray = false ∨ data = .arr []) :
    handler E W req = sendJson 400 (failureBody "No data provided")
      ∧ (handler E W req).status = 400
      ∧ (handler E W req).body
        = some (.obj [("success", .bool false), ("error", .str "No data provided")]) := by
  have hd : destructure req.body "data" "req.body" = .ok data := by
    rw [← hdata]
    cases hb : req.body <;> simp_all [destructure]
  have hcond : (!truthy data || !data.isArray || data.elements.length == 0) = true := by
    rcases hbad with h | h | h
    · subst h; rfl
    · simp [h]
    · subst h; rfl
  have hresponse : handler E W req = sendJson 400 (failureBody "No data provided") := by
    unfold handler tryBlock
    simp only [hmethod, hd]
    simp [hcond, bind, Except.bind, pure, Except.pure]
  exact ⟨hresponse, by rw [hresponse]; rfl, by rw [hresponse]; rfl⟩

/-- Witness of `bad_data_rejected`: a `POST` whose body has no `data` field. -/
theorem bad_data_rejected_witness :
    handler (tableEngine []) (cannedWorld 200 (.ok .null)) ⟨"POST", .obj [("rows", .arr [])]⟩
        = sendJson 400 (failureBody "No data provided")
      ∧ (handler (tableEngine []) (cannedWorld 200 (.ok .null))
          ⟨"POST", .obj [("rows", .arr [])]⟩).status = 400
      ∧ (handler (tableEngine []) (cannedWorld 200 (.ok .null))
          ⟨"POST", .obj [("rows", .arr [])]⟩).body
        = some (.obj [("success", .bool false), ("error", .str "No data provided")]) :=
  bad_data_rejected _ _ ⟨"POST", .obj [("rows", .arr [])]⟩ .undefined rfl (by simp) (by simp) rfl
    (Or.inl rfl)

/-- C2 (as stated) fails: a lower-case `post` with an empty `data` array is
answered with 405, and a `POST` without a body with 500; neither is the 400
response. -/
theorem bad_data_counterexample :
    handler (tableEngine []) (cannedWorld 200 (.ok .null)) ⟨"post", .obj [("data", .arr [])]⟩
        = sendJson 405 (.obj [("error", .str "Method not allowed")])
      ∧ (handler (tableEngine []) (cannedWorld 200 (.ok .null))
          ⟨"post", .obj [("data", .arr [])]⟩).status = 405
      ∧ (handler (tableEngine []) (cannedWorld 200 (.ok .null))
          ⟨"post", .obj [("data", .arr [])]⟩).status ≠ 400
      ∧ (∃ message,
          handler (tableEngine []) (cannedWorld 200 (.ok .null)) ⟨"POST", .undefined⟩
            = sendJson 500 (failureBody message))
      ∧ (handler (tableEngine []) (cannedWorld 200 (.ok .null)) ⟨"POST", .undefined⟩).status = 500
      ∧ (handler (tableEngine []) (cannedWorld 200 (.ok .null)) ⟨"POST", .undefined⟩).status ≠ 400 :=
  ⟨rfl, by decide, by decide, ⟨_, rfl⟩, by decide, by decide⟩

/-! ## Error paths -/

/-- The range test of `response.ok` fails outside 200-299. -/
theorem statusOk_eq_false {status : Nat} (hstatus : ¬ (200 ≤ status ∧ status ≤ 299)) :
    statusOk status = false := by
  simp only [statusOk, Bool.and_eq_false_iff, decide_eq_false_iff_not]
  by_contra hc
  push_neg at hc
  exact hstatus hc

/-- C6 (amended): when the upstream call of a validated `POST` request is
answered with a status `s` outside 200-299 and the body of that answer is
read (`response.text()` resolves, with any text), the handler answers with
status 500 and the body `{success:false, error:"OpenRouter API error: " + s}`;
the answer depends neither on the text read nor on the JSON reading of the
body. -/
theorem upstream_failure (E : Engine) (W : World) (req : Request) (status : Nat)
    (errorText : String) (json : Except JsError JsVal)
    (hcall : Calls E W req (.response status (.ok errorText) json))
    (hstatus : ¬ (200 ≤ status ∧ status ≤ 299)) :
    handler E W req
        = sendJson 500 (failureBody ("OpenRouter API error: " ++ toString status))
      ∧ (handler E W req).status = 500
      ∧ (handler E W req).body
        = some (.obj [("success", .bool false),
            ("error", .str ("OpenRouter API error: " ++ toString status))]) := by
  have hresponse : handler E W req
      = sendJson 500 (failureBody ("OpenRouter API error: " ++ toString status)) := by
    rw [handler_of_calls hcall]
    simp [afterFetch, statusOk_eq_false hstatus]
  exact ⟨hresponse, by rw [hresponse]; rfl, by rw [hresponse]; rfl⟩

/-- Witness of `upstream_failure`: the upstream answers 503 with a readable body. -/
theorem upstream_failure_witness :
    handler (tableEngine []) (cannedWorld 503 (.ok (completion (.str "[]")))) exampleRequest
        = sendJson 500 (failureBody "OpenRouter API error: 503")
      ∧ (handler (tableEngine []) (cannedWorld 503 (.ok (completion (.str "[]"))))
          exampleRequest).status = 500
      ∧ (handler (tableEngine []) (cannedWorld 503 (.ok (completion (.str "[]"))))
          exampleRequest).body
        = some (.obj [("success", .bool false), ("error", .str "OpenRouter API error: 503")]) :=
  upstream_failure _ _ _ 503 "" _ (calls_example _ 503 _) (by decide)

/-- When the body of a non-success answer cannot be read, the rejection of
`response.text()` is what the outer `catch` reports. -/
theorem upstream_failure_unreadable (E : Engine) (W : World) (req : Request) (status : Nat)
    (e : JsError) (json : Except JsError JsVal)
    (hcall : Calls E W req (.response status (.error e) json))
    (hstatus : ¬ (200 ≤ status ∧ status ≤ 299)) :
    handler E W req = sendJson 500 (failureBody e.message) := by
  rw [handler_of_calls hcall]
  simp [afterFetch, statusOk_eq_false hstatus]

/-- C6 (as stated) fails: when the upstream answers 503 and reading its body
fails with the message `terminated`, the handler answers 500 with that
message, not with `OpenRouter API error: 503`. -/
theorem upstream_failure_counterexample :
    (handler (tableEngine []) (brokenBodyWorld 503 ⟨"terminated"⟩) exampleRequest).status = 500
      ∧ (handler (tableEngine []) (brokenBodyWorld 503 ⟨"terminated"⟩) exampleRequest).body
        = some (.obj [("success", .bool false), ("error", .str "terminated")])
      ∧ (handler (tableEngine []) (brokenBodyWorld 503 ⟨"terminated"⟩) exampleRequest).body
        ≠ some (.obj [("success", .bool false), ("error", .str "OpenRouter API error: 503")]) := by
  refine ⟨rfl, rfl, ?_⟩
  intro h
  have h2 : (some (JsVal.obj [("success", .bool false), ("error", .str "terminated")])
      : Option JsVal)
      = some (.obj [("success", .bool false), ("error", .str "OpenRouter API error: 503")]) := h
  simp at h2

/-- C4: when the upstream call succeeds and the text of the first
completion, fences removed and trimmed, is rejected by `JSON.parse`, the
handler answers with status 200, not an error status, and the body
`{success:true, issues:[]}`. -/
theorem parse_failure_degrades (E : Engine) (W : World) (req : Request) (text : String)
    (e : JsError)
    (hdone : Completes E W req (.str text))
    (hparse : E.jsonParse (stripFence text) = .error e) :
    handler E W req = sendJson 200 (successBody [])
      ∧ (handler E W req).status = 200
      ∧ (handler E W req).body = some (.obj [("success", .bool true), ("issues", .arr [])]) := by
  have hresponse : handler E W req = sendJson 200 (successBody []) := by
    rw [handler_of_completes hdone]
    simp [afterCompletion, parseIssues, parseAttempt, hparse, filterIssues, filterArray]
  exact ⟨hresponse, by rw [hresponse]; rfl, by rw [hresponse]; rfl⟩

/-- Witness of `parse_failure_degrades`: the completion is prose. -/
theorem parse_failure_degrades_witness :
    handler (tableEngine []) (cannedWorld 200 (.ok (completion (.str "No issues found."))))
          exampleRequest
        = sendJson 200 (successBody [])
      ∧ (handler (tableEngine []) (cannedWorld 200 (.ok (completion (.str "No issues found."))))
          exampleRequest).status = 200
      ∧ (handler (tableEngine []) (cannedWorld 200 (.ok (completion (.str "No issues found."))))
          exampleRequest).body
        = some (.obj [("success", .bool true), ("issues", .arr [])]) :=
  parse_failure_degrades _ _ _ "No issues found." ⟨"Unexpected token"⟩
    (completes_example _ _) rfl

/-- A throwing callback on some element makes the whole filter throw. -/
theorem filterArray_throws_of_mem {p : JsVal → Except JsError Bool} {x : JsVal}
    (hx : ∃ e, p x = .error e) :
    ∀ xs : List JsVal, x ∈ xs → ∃ e, filterArray p xs = .error e
  | [], h => by simp at h
  | y :: ys, h => by
    rcases List.mem_cons.mp h with rfl | h
    · obtain ⟨e, he⟩ := hx
      exact ⟨e, by simp [filterArray, he, bind, Except.bind]⟩
    · obtain ⟨e, he⟩ := filterArray_throws_of_mem hx ys h
      cases hy : p y with
      | error e2 => exact ⟨e2, by simp [filterArray, hy, bind, Except.bind]⟩
      | ok b => exact ⟨e, by simp [filterArray, hy, he, bind, Except.bind]⟩

/-- C10: when the upstream call succeeds and the stripped completion text
parses to a value that is not an array, or to an array with a `null`
element, the handler answers 500 with `{success:false, error:<message>}`. -/
theorem non_array_output_fails (E : Engine) (W : World) (req : Request) (text : String)
    (v : JsVal)
    (hdone : Completes E W req (.str text))
    (hparse : E.jsonParse (stripFence text) = .ok v)
    (hv : v.isArray = false ∨ ∃ xs, v = .arr xs ∧ JsVal.null ∈ xs) :
    ∃ message,
      handler E W req = sendJson 500 (failureBody message)
        ∧ (handler E W req).status = 500
        ∧ (handler E W req).body
          = some (.obj [("success", .bool false), ("error", .str message)]) := by
  rw [handler_of_completes hdone]
  have hissues : parseIssues E (.str text) = v := by
    simp [parseIssues, parseAttempt, hparse]
  have hthrow : ∃ e, filterIssues E v = .error e := by
    rcases hv with h | ⟨xs, rfl, hmem⟩
    · cases v <;> simp_all [filterIssues, JsVal.isArray]
    · exact filterArray_throws_of_mem ⟨_, rfl⟩ xs hmem
  obtain ⟨e, he⟩ := hthrow
  have hresponse : afterCompletion E (.str text) = sendJson 500 (failureBody e.message) := by
    simp [afterCompletion, hissues, he]
  exact ⟨e.message, hresponse, by rw [hresponse]; rfl, by rw [hresponse]; rfl⟩

/-- Witness of `non_array_output_fails`: the completion is a JSON object. -/
theorem non_array_output_fails_witness :
    ∃ message,
      handler (tableEngine [("\x7b\"issues\":[]\x7d", .obj [("issues", .arr [])])])
            (cannedWorld 200 (.ok (completion (.str "\x7b\"issues\":[]\x7d")))) exampleRequest
          = sendJson 500 (failureBody message)
        ∧ (handler (tableEngine [("\x7b\"issues\":[]\x7d", .obj [("issues", .arr [])])])
            (cannedWorld 200 (.ok (completion (.str "\x7b\"issues\":[]\x7d"))))
            exampleRequest).status = 500
        ∧ (handler (tableEngine [("\x7b\"issues\":[]\x7d", .obj [("issues", .arr [])])])
            (cannedWorld 200 (.ok (completion (.str "\x7b\"issues\":[]\x7d"))))
            exampleRequest).body
          = some (.obj [("success", .bool false), ("error", .str message)]) :=
  non_array_output_fails _ _ _ "\x7b\"issues\":[]\x7d" (.obj [("issues", .arr [])])
    (completes_example _ _) rfl (Or.inl rfl)

/-! ## Prompt construction -/

/-- The `forEach` accumulation appends the lines of the cells in order. -/
theorem foldlM_appendLine (E : Engine) :
    ∀ (cells : List JsVal) (lines : List String) (init : String),
      List.Forall₂ (fun cell line => cellLine E cell = .ok line) cells lines →
      cells.foldlM (appendLine E) init = .ok (init ++ concatLines lines)
  | [], _, init, h => by
    cases h
    simp [concatLines, pure, Except.pure]
  | c :: cs, _, init, h => by
    cases h with
    | cons hc hrest =>
      simp only [List.foldlM, appendLine, hc, bind, Except.bind, pure, Except.pure]
      rw [foldlM_appendLine E cs _ _ hrest]
      simp [concatLines, String.append_assoc]

/-- Closed form of the prompt. -/
theorem buildPrompt_eq (E : Engine) (data : List JsVal) (lines : List String)
    (hlines : List.Forall₂ (fun cell line => cellLine E cell = .ok line) (data.take 200) lines) :
    buildPrompt E data
      = .ok (promptHeader ++ concatLines lines
          ++ (if data.length > 200 then
                "\n(Showing first 200 of " ++ toString data.length ++ " cells)"
              else "")) := by
  unfold buildPrompt
  simp only [maxCells, foldlM_appendLine E _ _ promptHeader hlines, bind, Except.bind]
  by_cases hn : data.length > 200
  · have hnote : ("\n(Showing first " ++ toString 200 ++ " of " : String)
        = "\n(Showing first 200 of " := by decide
    simp [hn, truncationNote, maxCells, pure, Except.pure, hnote]
  · simp [hn, pure, Except.pure]

/-- C3: for a `data` array of length `n` whose first `min n 200` cells yield
the lines `lines` (in order), the user prompt is the header line, then
exactly these lines, then the note `"\n(Showing first 200 of n cells)"` if
and only if `n > 200`; cells at index 200 and beyond contribute nothing:
an array of the same length with the same first 200 cells has the same
prompt. -/
theorem prompt_truncation (E : Engine) (data : List JsVal) (lines : List String)
    (hlines : List.Forall₂ (fun cell line => cellLine E cell = .ok line) (data.take 200) lines) :
    lines.length = min data.length 200
      ∧ buildPrompt E data
        = .ok (promptHeader ++ concatLines lines
            ++ (if data.length > 200 then
                  "\n(Showing first 200 of " ++ toString data.length ++ " cells)"
                else ""))
      ∧ ∀ other : List JsVal, other.length = data.length → other.take 200 = data.take 200 →
          buildPrompt E other = buildPrompt E data := by
  refine ⟨?_, buildPrompt_eq E data lines hlines, ?_⟩
  · have := hlines.length_eq
    simp only [List.length_take] at this
    omega
  · intro other hlen htake
    rw [buildPrompt_eq E data lines hlines, buildPrompt_eq E other lines (htake ▸ hlines), hlen]

theorem forall₂_replicate {α β : Type} {R : α → β → Prop} {a : α} {b : β} (h : R a b) :
    ∀ n : Nat, List.Forall₂ R (List.replicate n a) (List.replicate n b)
  | 0 => List.Forall₂.nil
  | n + 1 => List.Forall₂.cons h (forall₂_replicate h n)

/-- Witness of `prompt_truncation`: 201 copies of one cell give 200 lines and the note. -/
theorem prompt_truncation_witness :
    (List.replicate 200 "A1: \"x\"\n").length
        = min (List.replicate 201 (CellInput.toJs ⟨"A1", none, none, "x"⟩)).length 200
      ∧ buildPrompt (tableEngine []) (List.replicate 201 (CellInput.toJs ⟨"A1", none, none, "x"⟩))
        = .ok (promptHeader ++ concatLines (List.replicate 200 "A1: \"x\"\n")
            ++ (if (List.replicate 201 (CellInput.toJs ⟨"A1", none, none, "x"⟩)).length > 200 then
                  "\n(Showing first 200 of "
                    ++ toString (List.replicate 201 (CellInput.toJs ⟨"A1", none, none, "x"⟩)).length
                    ++ " cells)"
                else ""))
      ∧ ∀ other : List JsVal,
          other.length = (List.replicate 201 (CellInput.toJs ⟨"A1", none, none, "x"⟩)).length →
          other.take 200 = (List.replicate 201 (CellInput.toJs ⟨"A1", none, none, "x"⟩)).take 200 →
          buildPrompt (tableEngine []) other
            = buildPrompt (tableEngine [])
                (List.replicate 201 (CellInput.toJs ⟨"A1", none, none, "x"⟩)) :=
  prompt_truncation (tableEngine []) (List.replicate 201 (CellInput.toJs ⟨"A1", none, none, "x"⟩))
    (List.replicate 200 "A1: \"x\"\n")
    (by
      rw [List.take_replicate]
      exact @forall₂_replicate JsVal String _ (CellInput.toJs ⟨"A1", none, none, "x"⟩)
        "A1: \"x\"\n" rfl 200)

theorem represents_toJs (c : CellInput) : Represents c.toJs c := by
  obtain ⟨a, h, w, v⟩ := c
  cases h <;> cases w <;> exact ⟨rfl, rfl, rfl, rfl⟩

/-- The line of a cell carrying a descriptor of the data model. -/
theorem cellLine_of_represents (E : Engine) {cell : JsVal} {c : CellInput}
    (h : Represents cell c) : cellLine E cell = .ok c.line := by
  obtain ⟨ha, hh, hw, hv⟩ := h
  obtain ⟨a, header, w, v⟩ := c
  simp only [] at ha hh hw hv
  unfold cellLine
  simp only [ha, hh, hw, hv, bind, Except.bind, toStr, CellInput.line]
  cases header with
  | none =>
    cases w with
    | none => simp [truthy, pure, Except.pure]
    | some b => cases b <;> simp [truthy, pure, Except.pure]
  | some s =>
    by_cases hs : s = ""
    · cases w with
      | none => simp [truthy, pure, Except.pure, hs]
      | some b => cases b <;> simp [truthy, pure, Except.pure, hs]
    · cases w with
      | none => simp [truthy, pure, Except.pure, hs, toStr]
      | some b => cases b <;> simp [truthy, pure, Except.pure, hs, toStr]

/-- C7 (amended): for a `data` array whose entries carry the cell descriptors
`cells`, every cell yields the one line
`address + headerPart + formulaPart + ": \"" + value + "\"\n"`, where
`headerPart` is `" [" + header + "]"` exactly when the cell has a non-empty
header and `formulaPart` is `" [extracted from broken formula]"` exactly when
`wasFormula` is true, the header annotation first; and the prompt consists
of the header line, these lines for the retained cells in order, and the
truncation note. -/
theorem prompt_line_format (E : Engine) (data : List JsVal) (cells : List CellInput)
    (hcells : List.Forall₂ Represents data cells) :
    List.Forall₂ (fun cell c => cellLine E cell = .ok c.line) data cells
      ∧ buildPrompt E data
        = .ok (promptHeader ++ concatLines ((cells.take 200).map CellInput.line)
            ++ (if data.length > 200 then
                  "\n(Showing first 200 of " ++ toString data.length ++ " cells)"
                else "")) := by
  have hall : List.Forall₂ (fun cell c => cellLine E cell = .ok c.line) data cells :=
    hcells.imp fun _ _ h => cellLine_of_represents E h
  refine ⟨hall, buildPrompt_eq E data _ ?_⟩
  rw [List.forall₂_map_right_iff]
  exact List.forall₂_take 200 hall

/-- Witness of `prompt_line_format`: a cell with header and formula flag, and a bare cell. -/
theorem prompt_line_format_witness :
    List.Forall₂ (fun cell c => cellLine (tableEngine []) cell = .ok (CellInput.line c))
        [CellInput.toJs ⟨"B3", some "Phone", some true, "+7999123"⟩,
         CellInput.toJs ⟨"A1", none, none, "  john smith "⟩]
        [⟨"B3", some "Phone", some true, "+7999123"⟩, ⟨"A1", none, none, "  john smith "⟩]
      ∧ buildPrompt (tableEngine [])
          [CellInput.toJs ⟨"B3", some "Phone", some true, "+7999123"⟩,
           CellInput.toJs ⟨"A1", none, none, "  john smith "⟩]
        = .ok (promptHeader
            ++ concatLines
                (([⟨"B3", some "Phone", some true, "+7999123"⟩,
                    ⟨"A1", none, none, "  john smith "⟩] : List CellInput).take 200
                  |>.map CellInput.line)
            ++ (if [CellInput.toJs ⟨"B3", some "Phone", some true, "+7999123"⟩,
                    CellInput.toJs ⟨"A1", none, none, "  john smith "⟩].length > 200 then
                  "\n(Showing first 200 of "
                    ++ toString [CellInput.toJs ⟨"B3", some "Phone", some true, "+7999123"⟩,
                        CellInput.toJs ⟨"A1", none, none, "  john smith "⟩].length
                    ++ " cells)"
                else "")) :=
  prompt_line_format (tableEngine []) _ _
    (List.Forall₂.cons (represents_toJs _) (List.Forall₂.cons (represents_toJs _) List.Forall₂.nil))

/-- C7 (as stated) fails: a cell whose header is the empty string has a
header, yet its line carries no header annotation. -/
theorem prompt_line_format_counterexample :
    cellLine (tableEngine []) (CellInput.toJs ⟨"A1", some "", none, "x"⟩) = .ok "A1: \"x\"\n"
      ∧ CellInput.specLine ⟨"A1", some "", none, "x"⟩ = "A1 []: \"x\"\n"
      ∧ cellLine (tableEngine []) (CellInput.toJs ⟨"A1", some "", none, "x"⟩)
        ≠ .ok (CellInput.specLine ⟨"A1", some "", none, "x"⟩) := by
  refine ⟨rfl, by decide, ?_⟩
  intro h
  have h2 : (Except.ok "A1: \"x\"\n" : Except JsError String) = .ok "A1 []: \"x\"\n" := h
  injection h2 with h3
  exact absurd h3 (by decide)

/-! ## Fence stripping -/

/-- Every match of the pattern starts with three backticks, or with a
newline and three backticks. -/
theorem fenceClose_prefix_of_fenceMatch {cs : List Char} (h : fenceMatch cs ≠ 0) :
    fenceClose <+: cs ∨ ('\n' :: fenceClose) <+: cs := by
  unfold fenceMatch at h
  split_ifs at h with h1 h2 h3 h4
  · left
    rw [List.isPrefixOf_iff_prefix] at h1
    exact List.IsPrefix.trans ⟨['j', 's', 'o', 'n', '\n'], rfl⟩ h1
  · left
    rw [List.isPrefixOf_iff_prefix] at h2
    exact List.IsPrefix.trans ⟨['j', 's', 'o', 'n'], rfl⟩ h2
  · right
    exact List.isPrefixOf_iff_prefix.mp h3
  · left
    exact List.isPrefixOf_iff_prefix.mp h4
  · exact absurd rfl h

theorem not_fenceClose_prefix {s tail : List Char}
    (hno : ¬ fenceClose <:+: s) (htail : NoTickAhead tail) :
    ¬ fenceClose <+: s ++ tail := by
  intro hp
  rcases List.prefix_or_prefix_of_prefix hp (List.prefix_append s tail) with h | h
  · exact hno h.isInfix
  · obtain ⟨r, hr⟩ := h
    obtain ⟨u, hu⟩ := hp
    -- s ++ r = fenceClose, and fenceClose ++ u = s ++ tail
    have h1 : s ++ (r ++ u) = s ++ tail := by rw [← List.append_assoc, hr, hu]
    have h2 : r ++ u = tail := List.append_cancel_left h1
    cases r with
    | nil =>
      rw [List.append_nil] at hr
      exact hno (hr ▸ List.infix_refl _)
    | cons c r' =>
      have hc : c = '\x60' := by
        have hmem : c ∈ fenceClose := by
          rw [← hr]; simp
        simp [fenceClose] at hmem
        exact hmem
      exact htail c (r' ++ u) (by rw [← h2]; rfl) hc

theorem fenceMatch_eq_zero {s tail : List Char} (hs : s ≠ [])
    (hno : ¬ fenceClose <:+: s) (htail : NoTickAhead tail) :
    fenceMatch (s ++ tail) = 0 := by
  by_contra hne
  rcases fenceClose_prefix_of_fenceMatch hne with h | h
  · exact not_fenceClose_prefix hno htail h
  · cases s with
    | nil => exact hs rfl
    | cons a s' =>
      rw [List.cons_append] at h
      have h' : fenceClose <+: s' ++ tail := (List.cons_prefix_cons.mp h).2
      have hno' : ¬ fenceClose <:+: s' := fun hi =>
        hno (hi.trans (List.suffix_cons a s').isInfix)
      exact not_fenceClose_prefix hno' htail h'

/-- Scanning copies a stretch without triple backtick unchanged. -/
theorem removeFencesAux_append :
    ∀ (s tail : List Char), ¬ fenceClose <:+: s → NoTickAhead tail →
      removeFencesAux 0 (s ++ tail) = s ++ removeFencesAux 0 tail
  | [], _, _, _ => rfl
  | a :: s', tail, hno, htail => by
    have hm : fenceMatch (a :: (s' ++ tail)) = 0 :=
      fenceMatch_eq_zero (List.cons_ne_nil a s') hno htail
    have hno' : ¬ fenceClose <:+: s' := fun hi =>
      hno (hi.trans (List.suffix_cons a s').isInfix)
    rw [List.cons_append, removeFencesAux, hm]
    simp only []
    rw [removeFencesAux_append s' tail hno' htail]
    rfl

theorem removeFencesAux_open (rest : List Char) :
    removeFencesAux 0 (fenceOpen ++ '\n' :: rest) = removeFencesAux 0 rest := by
  simp [fenceOpen, removeFencesAux, fenceMatch, List.isPrefixOf]

theorem removeFencesAux_close : removeFencesAux 0 ('\n' :: fenceClose) = [] := rfl

theorem noTickAhead_nil : NoTickAhead [] := fun _ _ h => by cases h

theorem noTickAhead_newline (rest : List Char) : NoTickAhead ('\n' :: rest) :=
  fun c _ h => by
    injection h with h1 _
    rw [← h1]
    decide

theorem removeFences_plain {J : String} (hno : ¬ HasTripleBacktick J) : removeFences J = J := by
  have h := removeFencesAux_append J.data [] hno noTickAhead_nil
  simp only [List.append_nil] at h
  simp [removeFences, h, removeFencesAux]

theorem removeFences_fenced {J : String} (hno : ¬ HasTripleBacktick J) :
    removeFences (fenced J) = J := by
  have hdata : (fenced J).data = fenceOpen ++ '\n' :: (J.data ++ '\n' :: fenceClose) := by
    simp [fenced, String.data_append, fenceOpen, fenceClose]
  unfold removeFences
  rw [hdata, removeFencesAux_open,
    removeFencesAux_append J.data _ hno (noTickAhead_newline _), removeFencesAux_close,
    List.append_nil]

theorem stripFence_plain {J : String} (hno : ¬ HasTripleBacktick J) :
    stripFence J = jsTrim J := by
  rw [stripFence, removeFences_plain hno]

theorem stripFence_fenced {J : String} (hno : ¬ HasTripleBacktick J) :
    stripFence (fenced J) = jsTrim J := by
  rw [stripFence, removeFences_fenced hno]

/-! ## Confidence filter -/

/-- No binary64 value lies strictly between the threshold and 7/10: a
binary64 value above the threshold is above 7/10. -/
theorem seven_tenths_lt_of_threshold_lt {q : Rat} (hq : IsBinary64 q)
    (hlo : confidenceThreshold < q) : (7 : Rat) / 10 < q := by
  obtain ⟨m, e, hm, _, _, rfl⟩ := hq
  unfold confidenceThreshold at hlo
  have hpos : (0 : Rat) < (2 : Rat) ^ e := zpow_pos (by norm_num) e
  have hm0 : 0 < m := by
    by_contra h
    push_neg at h
    have : (m : Rat) * (2 : Rat) ^ e ≤ 0 :=
      mul_nonpos_of_nonpos_of_nonneg (by exact_mod_cast h) hpos.le
    linarith
  have hm53 : m < 2 ^ 53 := lt_of_le_of_lt (le_abs_self m) hm
  by_contra hhi
  push_neg at hhi
  rcases le_or_lt 0 e with he | he
  · have h1 : (1 : Rat) ≤ (2 : Rat) ^ e := one_le_zpow₀ (by norm_num) he
    have h2 : (1 : Rat) ≤ m := by exact_mod_cast hm0
    have : (1 : Rat) ≤ m * (2 : Rat) ^ e := by nlinarith
    linarith
  · obtain ⟨k, rfl⟩ := Int.exists_eq_neg_ofNat he.le
    rw [zpow_neg, zpow_natCast] at hlo hhi
    have hk : (0 : Rat) < 2 ^ k := by positivity
    rcases le_or_lt k 53 with hk53 | hk53
    · obtain ⟨j, hj⟩ : ∃ j, 53 = k + j := ⟨53 - k, by omega⟩
      have h2 : (2 : Rat) ^ k * 2 ^ j = 2 ^ 53 := by rw [← pow_add, ← hj]
      have hscaled : (m : Rat) * (2 ^ k)⁻¹ = (m * 2 ^ j : Int) / 2 ^ 53 := by
        rw [← h2]; push_cast; field_simp; ring
      rw [hscaled] at hlo hhi
      have h3 : ((3152519739159347 * 2 : Int) : Rat) < ((m * 2 ^ j : Int) : Rat) := by
        have := (lt_div_iff₀ (by norm_num : (0 : Rat) < 2 ^ 53)).mp hlo
        push_cast at this ⊢
        norm_num at this ⊢
        linarith
      have h4 : ((m * 2 ^ j : Int) : Rat) * 10 ≤ ((7 * 2 ^ 53 : Int) : Rat) := by
        have := (div_le_iff₀ (by norm_num : (0 : Rat) < 2 ^ 53)).mp hhi
        push_cast at this ⊢
        norm_num at this ⊢
        linarith
      have h3i : (3152519739159347 * 2 : Int) < m * 2 ^ j := by exact_mod_cast h3
      have h4i : (m * 2 ^ j : Int) * 10 ≤ 7 * 2 ^ 53 := by exact_mod_cast h4
      norm_num at h3i h4i
      omega
    · have h54 : (2 : Rat) ^ 54 ≤ 2 ^ k := pow_le_pow_right₀ (by norm_num) hk53
      have hmq : (m : Rat) < 2 ^ 53 := by exact_mod_cast hm53
      have : (m : Rat) * (2 ^ k)⁻¹ < 1 / 2 := by
        rw [← div_eq_mul_inv, div_lt_iff₀ hk]
        norm_num at h54 hmq ⊢
        linarith
      norm_num at hlo
      linarith

/-- On binary64 values the comparison with the threshold is the comparison
with the real number 7/10. -/
theorem threshold_lt_iff {q : Rat} (hq : IsBinary64 q) :
    confidenceThreshold < q ↔ (7 : Rat) / 10 < q :=
  ⟨seven_tenths_lt_of_threshold_lt hq, fun h =>
    lt_trans (by unfold confidenceThreshold; norm_num) h⟩

theorem gt_threshold_of_gt {n : JsNum} (h : n.gt (7 / 10) = true) :
    n.gt confidenceThreshold = true := by
  cases n with
  | fin q =>
    simp only [JsNum.gt, decide_eq_true_eq] at h ⊢
    exact lt_trans (by unfold confidenceThreshold; norm_num) h
  | nan => exact h
  | posInf => exact h
  | negInf => exact h

/-- With a callback that never throws, the filter is the pure list filter. -/
theorem filterArray_eq_filter {p : JsVal → Except JsError Bool} :
    ∀ xs : List JsVal, (∀ x ∈ xs, ∃ b, p x = .ok b) →
      filterArray p xs = .ok (xs.filter fun x => answersTrue (p x))
  | [], _ => rfl
  | x :: xs, h => by
    obtain ⟨b, hb⟩ := h x (List.mem_cons_self x xs)
    have ih := filterArray_eq_filter xs fun y hy => h y (List.mem_cons_of_mem x hy)
    cases b <;>
      simp [filterArray, hb, ih, bind, Except.bind, pure, Except.pure, List.filter_cons, answersTrue]

theorem keepIssue_of_isIssue (E : Engine) {i : JsVal} (h : IsIssue i) :
    ∃ b, keepIssue E i = .ok b := by
  obtain ⟨fields, rfl, hc | ⟨n, hc⟩⟩ := h
  · exact ⟨true, by simp [keepIssue, getProp, hc, truthy, bind, Except.bind, pure, Except.pure]⟩
  · by_cases ht : truthy (.num n) = true
    · exact ⟨n.gt confidenceThreshold, by
        simp [keepIssue, getProp, hc, ht, toNumber, bind, Except.bind, pure, Except.pure]⟩
    · exact ⟨true, by
        simp [keepIssue, getProp, hc, ht, bind, Except.bind, pure, Except.pure]⟩

theorem keepIssue_absent (E : Engine) {fields : List (String × JsVal)}
    (h : fields.lookup "confidence" = none) : keepIssue E (.obj fields) = .ok true := by
  simp [keepIssue, getProp, h, truthy, bind, Except.bind, pure, Except.pure]

theorem keepIssue_above (E : Engine) {fields : List (String × JsVal)} {n : JsNum}
    (h : fields.lookup "confidence" = some (.num n)) (hn : n.gt (7 / 10) = true) :
    keepIssue E (.obj fields) = .ok true := by
  by_cases ht : truthy (.num n) = true
  · simp [keepIssue, getProp, h, ht, toNumber, gt_threshold_of_gt hn, bind, Except.bind, pure,
      Except.pure]
  · simp [keepIssue, getProp, h, ht, bind, Except.bind, pure, Except.pure]

theorem filterIssues_of_isIssue (E : Engine) {xs : List JsVal} (h : ∀ i ∈ xs, IsIssue i) :
    filterIssues E (.arr xs) = .ok (xs.filter fun i => answersTrue (keepIssue E i)) :=
  filterArray_eq_filter xs fun i hi => keepIssue_of_isIssue E (h i hi)

/-- C5: when the upstream call succeeds and the issue list is an array `xs`
of issue objects, the handler answers with status 200 and the body
`{success:true, issues:filtered}`, where `filtered` is a subsequence of `xs`
(its elements are elements of `xs`, unchanged, in their order), and every
element of `xs` whose `confidence` is absent or a number above 0.7 is in
`filtered`. -/
theorem filter_passes_through (E : Engine) (W : World) (req : Request) (aiResponse : JsVal)
    (xs : List JsVal)
    (hdone : Completes E W req aiResponse)
    (hparsed : parseIssues E aiResponse = .arr xs)
    (hissues : ∀ i ∈ xs, IsIssue i) :
    ∃ filtered,
      handler E W req = sendJson 200 (successBody filtered)
        ∧ (handler E W req).status = 200
        ∧ (handler E W req).body
          = some (.obj [("success", .bool true), ("issues", .arr filtered)])
        ∧ filtered.Sublist xs
        ∧ ∀ fields, JsVal.obj fields ∈ xs →
            (fields.lookup "confidence" = none
              ∨ (∃ q : Rat, fields.lookup "confidence" = some (.num (.fin q)) ∧ 7 / 10 < q)
              ∨ fields.lookup "confidence" = some (.num .posInf)) →
            JsVal.obj fields ∈ filtered := by
  have hresponse : handler E W req
      = sendJson 200 (successBody (xs.filter fun i => answersTrue (keepIssue E i))) := by
    rw [handler_of_completes hdone]
    simp [afterCompletion, hparsed, filterIssues_of_isIssue E hissues]
  refine ⟨xs.filter fun i => answersTrue (keepIssue E i), hresponse, by rw [hresponse]; rfl,
    by rw [hresponse]; rfl, List.filter_sublist xs, ?_⟩
  intro fields hmem hconf
  refine List.mem_filter.mpr ⟨hmem, ?_⟩
  rcases hconf with h | ⟨q, h, hq⟩ | h
  · simp [keepIssue_absent E h, answersTrue]
  · have hgt : (JsNum.fin q).gt (7 / 10) = true := by simp [JsNum.gt, hq]
    simp [keepIssue_above E h hgt, answersTrue]
  · have hgt : JsNum.posInf.gt (7 / 10) = true := rfl
    simp [keepIssue_above E h hgt, answersTrue]

theorem isIssue_nameIssue (q : Rat) : IsIssue (nameIssue q) :=
  ⟨_, rfl, Or.inr ⟨.fin q, rfl⟩⟩

theorem isIssue_lowIssue : IsIssue lowIssue :=
  ⟨_, rfl, Or.inr ⟨.fin (1 / 2), rfl⟩⟩

/-- Witness of `filter_passes_through`: the upstream returns `twoIssuesText`. -/
theorem filter_passes_through_witness :
    ∃ filtered,
      handler (tableEngine [(twoIssuesText, .arr [lowIssue, nameIssue double095])])
            (cannedWorld 200 (.ok (completion (.str twoIssuesText)))) exampleRequest
          = sendJson 200 (successBody filtered)
        ∧ (handler (tableEngine [(twoIssuesText, .arr [lowIssue, nameIssue double095])])
            (cannedWorld 200 (.ok (completion (.str twoIssuesText)))) exampleRequest).status = 200
        ∧ (handler (tableEngine [(twoIssuesText, .arr [lowIssue, nameIssue double095])])
            (cannedWorld 200 (.ok (completion (.str twoIssuesText)))) exampleRequest).body
          = some (.obj [("success", .bool true), ("issues", .arr filtered)])
        ∧ filtered.Sublist [lowIssue, nameIssue double095]
        ∧ ∀ fields, JsVal.obj fields ∈ [lowIssue, nameIssue double095] →
            (fields.lookup "confidence" = none
              ∨ (∃ q : Rat, fields.lookup "confidence" = some (.num (.fin q)) ∧ 7 / 10 < q)
              ∨ fields.lookup "confidence" = some (.num .posInf)) →
            JsVal.obj fields ∈ filtered :=
  filter_passes_through _ _ _ (.str twoIssuesText) [lowIssue, nameIssue double095]
    (completes_example _ _) rfl
    (by
      intro i hi
      rcases List.mem_cons.mp hi with rfl | hi
      · exact isIssue_lowIssue
      · rcases List.mem_cons.mp hi with rfl | hi
        · exact isIssue_nameIssue _
        · cases hi)

/-- The specification example at confidence 0.5 next to one at 0.95: only
the latter is returned. -/
theorem low_confidence_example :
    handler (tableEngine [(twoIssuesText, .arr [lowIssue, nameIssue double095])])
        (cannedWorld 200 (.ok (completion (.str twoIssuesText)))) exampleRequest
      = ⟨corsHeaders, 200,
          some (.obj [("success", .bool true), ("issues", .arr [nameIssue double095])])⟩ := by
  rw [handler_of_completes (completes_example _ (.str twoIssuesText))]
  have hp : parseIssues (tableEngine [(twoIssuesText, .arr [lowIssue, nameIssue double095])])
      (.str twoIssuesText) = .arr [lowIssue, nameIssue double095] := rfl
  simp only [afterCompletion, hp]
  simp [filterIssues, filterArray, keepIssue, getProp, lowIssue, nameIssue, List.lookup, truthy,
    toNumber, JsNum.gt, confidenceThreshold, double095, bind, Except.bind, pure, Except.pure]
  norm_num
  rfl

/-- The filter callback on a finite numeric confidence: the issue is kept
exactly when the confidence is 0 or above 0.7. -/
theorem keepIssue_fin (E : Engine) {fields : List (String × JsVal)} {q : Rat}
    (h : fields.lookup "confidence" = some (.num (.fin q))) (hq : IsBinary64 q) :
    keepIssue E (.obj fields) = .ok (decide (q = 0 ∨ q > 7 / 10)) := by
  by_cases h0 : q = 0
  · simp [keepIssue, getProp, h, truthy, h0, bind, Except.bind, pure, Except.pure]
  · simp [keepIssue, getProp, h, truthy, h0, toNumber, JsNum.gt, threshold_lt_iff hq, bind,
      Except.bind, pure, Except.pure]

/-- C1: the code keeps an issue whose `confidence` is present and equal to 0:
when the upstream returns the one-issue array with `"confidence":0`, the
response carries that issue. -/
theorem zero_confidence_kept :
    handler (tableEngine [(nameIssueText "0", .arr [nameIssue 0])])
          (cannedWorld 200 (.ok (completion (.str (nameIssueText "0"))))) exampleRequest
        = sendJson 200 (successBody [nameIssue 0])
      ∧ (handler (tableEngine [(nameIssueText "0", .arr [nameIssue 0])])
          (cannedWorld 200 (.ok (completion (.str (nameIssueText "0"))))) exampleRequest).status
        = 200
      ∧ (handler (tableEngine [(nameIssueText "0", .arr [nameIssue 0])])
          (cannedWorld 200 (.ok (completion (.str (nameIssueText "0"))))) exampleRequest).body
        = some (.obj [("success", .bool true), ("issues", .arr [nameIssue 0])]) :=
  ⟨rfl, rfl, rfl⟩

/-! ## Fenced output -/

/-- C8: when the first completion is a text `J` without triple backtick
wrapped in a JSON code fence, and `J` denotes an array `xs` of issue
objects, the stripping step yields `trim(J)`, the handler answers 200 with
`success:true` and the filtered `xs`, and this is the response to any request
whose completion is `J` unfenced. -/
theorem fenced_output_unwrapped (E : Engine) (W : World) (req : Request) (J : String)
    (xs : List JsVal)
    (hdone : Completes E W req (.str (fenced J)))
    (hno : ¬ HasTripleBacktick J)
    (hparse : E.jsonParse (jsTrim J) = .ok (.arr xs))
    (hissues : ∀ i ∈ xs, IsIssue i) :
    stripFence (fenced J) = jsTrim J
      ∧ (∃ filtered, filterIssues E (.arr xs) = .ok filtered
          ∧ handler E W req = sendJson 200 (successBody filtered)
          ∧ (handler E W req).status = 200
          ∧ (handler E W req).body
            = some (.obj [("success", .bool true), ("issues", .arr filtered)]))
      ∧ ∀ W2 req2, Completes E W2 req2 (.str J) → handler E W2 req2 = handler E W req := by
  have hf : parseIssues E (.str (fenced J)) = .arr xs := by
    simp [parseIssues, parseAttempt, stripFence_fenced hno, hparse]
  have hp : parseIssues E (.str J) = .arr xs := by
    simp [parseIssues, parseAttempt, stripFence_plain hno, hparse]
  have hresponse : handler E W req
      = sendJson 200 (successBody (xs.filter fun i => answersTrue (keepIssue E i))) := by
    rw [handler_of_completes hdone]
    simp [afterCompletion, hf, filterIssues_of_isIssue E hissues]
  refine ⟨stripFence_fenced hno,
    ⟨_, filterIssues_of_isIssue E hissues, hresponse, by rw [hresponse]; rfl,
      by rw [hresponse]; rfl⟩, ?_⟩
  · intro W2 req2 h2
    rw [handler_of_completes hdone, handler_of_completes h2, afterCompletion, afterCompletion,
      hf, hp]

theorem no_triple_nameIssueText : ¬ HasTripleBacktick (nameIssueText "0.95") := by
  unfold HasTripleBacktick
  decide

/-- Witness of `fenced_output_unwrapped`: the fenced `john smith` example at confidence 0.95. -/
theorem fenced_output_unwrapped_witness :
    stripFence (fenced (nameIssueText "0.95")) = jsTrim (nameIssueText "0.95")
      ∧ (∃ filtered,
          filterIssues (tableEngine [(nameIssueText "0.95", .arr [nameIssue double095])])
              (.arr [nameIssue double095]) = .ok filtered
          ∧ handler (tableEngine [(nameIssueText "0.95", .arr [nameIssue double095])])
              (cannedWorld 200 (.ok (completion (.str (fenced (nameIssueText "0.95"))))))
              exampleRequest
            = sendJson 200 (successBody filtered)
          ∧ (handler (tableEngine [(nameIssueText "0.95", .arr [nameIssue double095])])
              (cannedWorld 200 (.ok (completion (.str (fenced (nameIssueText "0.95"))))))
              exampleRequest).status = 200
          ∧ (handler (tableEngine [(nameIssueText "0.95", .arr [nameIssue double095])])
              (cannedWorld 200 (.ok (completion (.str (fenced (nameIssueText "0.95"))))))
              exampleRequest).body
            = some (.obj [("success", .bool true), ("issues", .arr filtered)]))
      ∧ ∀ W2 req2,
          Completes (tableEngine [(nameIssueText "0.95", .arr [nameIssue double095])]) W2 req2
            (.str (nameIssueText "0.95")) →
          handler (tableEngine [(nameIssueText "0.95", .arr [nameIssue double095])]) W2 req2
            = handler (tableEngine [(nameIssueText "0.95", .arr [nameIssue double095])])
                (cannedWorld 200 (.ok (completion (.str (fenced (nameIssueText "0.95"))))))
                exampleRequest :=
  fenced_output_unwrapped _ _ _ (nameIssueText "0.95") [nameIssue double095]
    (completes_example _ _) no_triple_nameIssueText rfl
    (by
      intro i hi
      rcases List.mem_cons.mp hi with rfl | hi
      · exact isIssue_nameIssue _
      · cases hi)

/-- The specification example: the fenced issue at confidence 0.95 is returned. -/
theorem fenced_example :
    handler (tableEngine [(nameIssueText "0.95", .arr [nameIssue double095])])
        (cannedWorld 200 (.ok (completion (.str (fenced (nameIssueText "0.95"))))))
        exampleRequest
      = ⟨corsHeaders, 200,
          some (.obj [("success", .bool true), ("issues", .arr [nameIssue double095])])⟩ := by
  rw [handler_of_completes (completes_example _ (.str (fenced (nameIssueText "0.95"))))]
  have hp : parseIssues (tableEngine [(nameIssueText "0.95", .arr [nameIssue double095])])
      (.str (fenced (nameIssueText "0.95"))) = .arr [nameIssue double095] := rfl
  simp only [afterCompletion, hp]
  simp [filterIssues, filterArray, keepIssue, getProp, nameIssue, List.lookup, truthy,
    toNumber, JsNum.gt, confidenceThreshold, double095, bind, Except.bind, pure, Except.pure]
  norm_num
  rfl

theorem removeFences_open_only {J : String} (hno : ¬ HasTripleBacktick J) :
    removeFences ("\x60\x60\x60json\n" ++ J) = J := by
  have hdata : ("\x60\x60\x60json\n" ++ J).data = fenceOpen ++ '\n' :: (J.data ++ []) := by
    simp [String.data_append, fenceOpen]
  unfold removeFences
  rw [hdata, removeFencesAux_open, removeFencesAux_append J.data _ hno noTickAhead_nil]
  simp [removeFencesAux]

theorem removeFences_close_only {J : String} (hno : ¬ HasTripleBacktick J) :
    removeFences (J ++ "\n\x60\x60\x60") = J := by
  have hdata : (J ++ "\n\x60\x60\x60").data = J.data ++ '\n' :: fenceClose := by
    simp [String.data_append, fenceClose]
  unfold removeFences
  rw [hdata, removeFencesAux_append J.data _ hno (noTickAhead_newline _), removeFencesAux_close,
    List.append_nil]

/-- C9 (amended): for every text `J` without triple backtick, the stripping
step yields `trim(J)` for `J` alone, for `J` in a JSON code fence, and for
`J` with only the leading or only the trailing marker: the markers are
removed and the text between them is unchanged apart from trimming. -/
theorem strip_keeps_unticked_text (J : String) (hno : ¬ HasTripleBacktick J) :
    stripFence J = jsTrim J
      ∧ stripFence (fenced J) = jsTrim J
      ∧ stripFence ("\x60\x60\x60json\n" ++ J) = jsTrim J
      ∧ stripFence (J ++ "\n\x60\x60\x60") = jsTrim J := by
  refine ⟨stripFence_plain hno, stripFence_fenced hno, ?_, ?_⟩
  · rw [stripFence, removeFences_open_only hno]
  · rw [stripFence, removeFences_close_only hno]

theorem no_triple_padded : ¬ HasTripleBacktick "  [1, 2]\n" := by
  unfold HasTripleBacktick
  decide

/-- Witness of `strip_keeps_unticked_text`: a padded array text. -/
theorem strip_keeps_unticked_text_witness :
    stripFence "  [1, 2]\n" = jsTrim "  [1, 2]\n"
      ∧ stripFence (fenced "  [1, 2]\n") = jsTrim "  [1, 2]\n"
      ∧ stripFence ("\x60\x60\x60json\n" ++ "  [1, 2]\n") = jsTrim "  [1, 2]\n"
      ∧ stripFence ("  [1, 2]\n" ++ "\n\x60\x60\x60") = jsTrim "  [1, 2]\n" :=
  strip_keeps_unticked_text "  [1, 2]\n" no_triple_padded

/-- C9 (as stated) fails: triple backticks inside a string value are removed
by the stripping step, so the text that reaches the parser differs from the
trimmed completion and the forwarded issue has lost them. -/
theorem strip_counterexample :
    stripFence tickText = tickTextStripped
      ∧ stripFence tickText ≠ jsTrim tickText
      ∧ handler (tableEngine [(tickTextStripped, .arr [tickIssueStripped])])
          (cannedWorld 200 (.ok (completion (.str tickText)))) exampleRequest
        = sendJson 200 (successBody [tickIssueStripped])
      ∧ (handler (tableEngine [(tickTextStripped, .arr [tickIssueStripped])])
          (cannedWorld 200 (.ok (completion (.str tickText)))) exampleRequest).body
        = some (.obj [("success", .bool true), ("issues", .arr [tickIssueStripped])]) := by
  refine ⟨by decide, by decide, rfl, rfl⟩

end Analyze
